import Mathlib

/-!
Verification of the model-routing core of mjx-assistant.

The development shallowly embeds, from the TypeScript source:
* `SQLiteStorage` (src/lib/ai/storage/SQLiteStorage.ts): the quota ledger —
  model rows, usage logs, task (outcome) logs, window queries, the seed
  upsert, and outcome logging;
* `MainAgent` (mainAgent.ts): candidate filtering, oracle-answer validation,
  deterministic and emergency fallbacks;
* `TaskExecutor` (src/lib/ai/taskExecutor.ts): `executeTask`,
  `executeWithModel` and `retryWithFallback`, as a fuel-indexed interpreter
  (the mutual recursion in the source is not structurally terminating; fuel
  makes it total while preserving every terminating behaviour).

Timestamps and SQL integers are modelled as `Int`; `Date.now()/1000` becomes
an explicit `now` parameter.  JS floating-point percentages are modelled as
`ℚ` (exact); the comparisons the code performs on them are order comparisons
that agree with the float semantics on all inputs used here.
-/

namespace MJX

/-- Row of the `models` table (see `createTables` in SQLiteStorage.ts). -/
structure ModelRow where
  name : String
  origin : String
  rank : Int
  description : String
  enabled : Bool
  rpmAllowed : Int
  tpmTotal : Int
  rpdTotal : Int
  tpdTotal : Int
  successfulTasks : Int
  failedTasks : Int
  updatedAt : Int
deriving Repr, DecidableEq

/-- Row of the `usage_logs` table. -/
structure UsageEvent where
  model : String
  requests : Int
  tokens : Int
  timestamp : Int
deriving Repr, DecidableEq

/-- Row of the `task_logs` table (outcome events). -/
structure OutcomeEvent where
  model : String
  taskType : String
  success : Bool
  errorMessage : Option String
  tokensUsed : Int
  timestamp : Int
deriving Repr, DecidableEq

/-- The persistent database state: the three tables of the SQLite schema. -/
structure DB where
  models : List ModelRow
  usageLogs : List UsageEvent
  taskLogs : List OutcomeEvent
deriving Repr, DecidableEq

/-- Shape returned by `getAllAvailableModels` (the `Model` type of
IStorage.ts: configuration without the aggregate counters). -/
structure Model where
  name : String
  origin : String
  rank : Int
  description : String
  enabled : Bool
  rpmAllowed : Int
  tpmTotal : Int
  rpdTotal : Int
  tpdTotal : Int
deriving Repr, DecidableEq

/-- Shape returned by `getModelStats` (`Model & ModelUsage` in the source). -/
structure StatRow where
  name : String
  origin : String
  rank : Int
  description : String
  enabled : Bool
  rpmAllowed : Int
  tpmTotal : Int
  rpdTotal : Int
  tpdTotal : Int
  successfulTasks : Int
  failedTasks : Int
  rpmUsed : Int
  tpmUsed : Int
  rpdUsed : Int
  tpdUsed : Int
deriving Repr, DecidableEq

/-- Result record of `getModelUsage`. -/
structure ModelUsage where
  model : String
  rpmUsed : Int
  tpmUsed : Int
  rpdUsed : Int
  tpdUsed : Int
deriving Repr, DecidableEq

/-- Sum of the `requests` column over usage events of `model` with
`timestamp >= since` (the SQL `IFNULL(SUM(requests),0) ... WHERE model = ?
AND timestamp >= ?`). -/
def sumRequestsSince (logs : List UsageEvent) (model : String) (since : Int) : Int :=
  ((logs.filter (fun e => e.model = model ∧ since ≤ e.timestamp)).map (fun e => e.requests)).sum

/-- Sum of the `tokens` column over usage events of `model` with
`timestamp >= since`. -/
def sumTokensSince (logs : List UsageEvent) (model : String) (since : Int) : Int :=
  ((logs.filter (fun e => e.model = model ∧ since ≤ e.timestamp)).map (fun e => e.tokens)).sum

/-- SQLiteStorage.getModelUsage: four sums over the sliding 60 s and 86400 s
windows ending at `now`. -/
def getModelUsage (db : DB) (model : String) (now : Int) : ModelUsage :=
  { model := model
    rpmUsed := sumRequestsSince db.usageLogs model (now - 60)
    tpmUsed := sumTokensSince db.usageLogs model (now - 60)
    rpdUsed := sumRequestsSince db.usageLogs model (now - 86400)
    tpdUsed := sumTokensSince db.usageLogs model (now - 86400) }

/-- SQLiteStorage.logModelUsage: append one usage event timestamped `now`. -/
def logModelUsage (db : DB) (model : String) (requests tokens : Int) (now : Int) : DB :=
  { db with usageLogs := db.usageLogs ++ [⟨model, requests, tokens, now⟩] }

/-- Rank comparison used by the SQL `ORDER BY rank ASC` clauses. -/
def rankLE (a b : ModelRow) : Prop := a.rank ≤ b.rank

instance : DecidableRel rankLE := fun a b => inferInstanceAs (Decidable (a.rank ≤ b.rank))

instance : IsTotal ModelRow rankLE := ⟨fun a b => Int.le_total a.rank b.rank⟩

instance : IsTrans ModelRow rankLE := ⟨fun _ _ _ h h' => Int.le_trans h h'⟩

/-- Projection from a `models` row to the `Model` result shape of
`getAllAvailableModels` (drops counters and `updatedAt`). -/
def toModel (r : ModelRow) : Model :=
  { name := r.name, origin := r.origin, rank := r.rank, description := r.description
    enabled := r.enabled, rpmAllowed := r.rpmAllowed, tpmTotal := r.tpmTotal
    rpdTotal := r.rpdTotal, tpdTotal := r.tpdTotal }

/-- The availability filter of `getAllAvailableModels`: remaining capacity of
at least 1 on both request quotas and at least `minTokens` on both token
quotas, usage summed over the sliding windows ending at `now`. -/
def availableOk (db : DB) (minTokens now : Int) (r : ModelRow) : Prop :=
  1 ≤ r.rpmAllowed - sumRequestsSince db.usageLogs r.name (now - 60) ∧
  minTokens ≤ r.tpmTotal - sumTokensSince db.usageLogs r.name (now - 60) ∧
  1 ≤ r.rpdTotal - sumRequestsSince db.usageLogs r.name (now - 86400) ∧
  minTokens ≤ r.tpdTotal - sumTokensSince db.usageLogs r.name (now - 86400)

instance (db : DB) (minTokens now : Int) (r : ModelRow) : Decidable (availableOk db minTokens now r) := by
  unfold availableOk; infer_instance

/-- SQLiteStorage.getAllAvailableModels: enabled rows ordered by rank, kept
when all four quotas have capacity, projected to `Model`. -/
def getAllAvailableModels (db : DB) (minTokens now : Int) : List Model :=
  ((((db.models.filter (fun r => r.enabled)).insertionSort rankLE).filter
      (fun r => decide (availableOk db minTokens now r))).map toModel)

/-- Projection from a `models` row to the `getModelStats` result shape. -/
def toStatRow (db : DB) (now : Int) (r : ModelRow) : StatRow :=
  { name := r.name, origin := r.origin, rank := r.rank, description := r.description
    enabled := r.enabled, rpmAllowed := r.rpmAllowed, tpmTotal := r.tpmTotal
    rpdTotal := r.rpdTotal, tpdTotal := r.tpdTotal
    successfulTasks := r.successfulTasks, failedTasks := r.failedTasks
    rpmUsed := sumRequestsSince db.usageLogs r.name (now - 60)
    tpmUsed := sumTokensSince db.usageLogs r.name (now - 60)
    rpdUsed := sumRequestsSince db.usageLogs r.name (now - 86400)
    tpdUsed := sumTokensSince db.usageLogs r.name (now - 86400) }

/-- SQLiteStorage.getModelStats: all rows ordered by rank, with counters and
windowed usage. -/
def getModelStats (db : DB) (now : Int) : List StatRow :=
  (db.models.insertionSort rankLE).map (toStatRow db now)

/-- The `errorMessage || null` coercion in logTaskOutcome: JS replaces both
`undefined` and the empty string by null. -/
def orNull (s : Option String) : Option String :=
  match s with
  | some t => if t = "" then none else some t
  | none => none

/-- First SQL statement of SQLiteStorage.logTaskOutcome: `INSERT INTO
task_logs ...`.  Under better-sqlite3 this statement autocommits on its own
(the method does not open a transaction). -/
def insertTaskLog (db : DB) (model taskType : String) (success : Bool)
    (tokensUsed : Int) (errorMessage : Option String) (now : Int) : DB :=
  { db with taskLogs := db.taskLogs ++ [⟨model, taskType, success, orNull errorMessage, tokensUsed, now⟩] }

/-- Second SQL statement of SQLiteStorage.logTaskOutcome: `UPDATE models SET
successful_tasks = successful_tasks + 1 ...` (or `failed_tasks`), again an
autocommitted statement of its own. -/
def bumpOutcomeCounter (db : DB) (model : String) (success : Bool) (now : Int) : DB :=
  { db with models := db.models.map (fun r =>
      if r.name = model then
        if success then { r with successfulTasks := r.successfulTasks + 1, updatedAt := now }
        else { r with failedTasks := r.failedTasks + 1, updatedAt := now }
      else r) }

/-- SQLiteStorage.logTaskOutcome: the two statements run in sequence. -/
def logTaskOutcome (db : DB) (model taskType : String) (success : Bool)
    (tokensUsed : Int) (errorMessage : Option String) (now : Int) : DB :=
  bumpOutcomeCounter (insertTaskLog db model taskType success tokensUsed errorMessage now) model success now

/-- The committed states produced by one logTaskOutcome call, in order: the
state after the INSERT autocommits, then the state after the UPDATE
autocommits.  better-sqlite3 commits each statement separately because
logTaskOutcome, unlike seedModels, does not wrap them in `db.transaction`. -/
def logTaskOutcomeCommits (db : DB) (model taskType : String) (success : Bool)
    (tokensUsed : Int) (errorMessage : Option String) (now : Int) : List DB :=
  [insertTaskLog db model taskType success tokensUsed errorMessage now,
   logTaskOutcome db model taskType success tokensUsed errorMessage now]

/-- SQLiteStorage.getModelFailureRate: percentage of failed outcome events
among the outcome events of the model inside the window; 0 when the window holds
no events. -/
def getModelFailureRate (db : DB) (model : String) (timeWindowSeconds now : Int) : ℚ :=
  let since := now - timeWindowSeconds
  let evs := db.taskLogs.filter (fun e => e.model = model ∧ since ≤ e.timestamp)
  let total := evs.length
  let failed := (evs.filter (fun e => e.success = false)).length
  if total = 0 then 0 else ((failed : ℚ) / (total : ℚ)) * 100

/-- Input row of seedModels (the `Model` type of IStorage.ts with its
optional numeric fields). -/
structure SeedRow where
  name : String
  origin : String
  rank : Int
  description : String
  enabled : Bool
  rpmAllowed : Option Int
  tpmTotal : Option Int
  rpdTotal : Option Int
  tpdTotal : Option Int
deriving Repr, DecidableEq

/-- A seed row passes the guard in seedModels unless rpmAllowed, tpmTotal or
rpdTotal is undefined (such rows are skipped with a warning). -/
def seedComplete (s : SeedRow) : Prop :=
  s.rpmAllowed.isSome ∧ s.tpmTotal.isSome ∧ s.rpdTotal.isSome

instance (s : SeedRow) : Decidable (seedComplete s) := by
  unfold seedComplete; infer_instance

/-- Fresh `models` row created when the upsert INSERT does not conflict:
counters take their column defaults (0). -/
def seedInsertRow (s : SeedRow) (now : Int) : ModelRow :=
  { name := s.name, origin := s.origin, rank := s.rank, description := s.description
    enabled := s.enabled
    rpmAllowed := s.rpmAllowed.getD 0
    tpmTotal := s.tpmTotal.getD 0
    rpdTotal := s.rpdTotal.getD 0
    tpdTotal := s.tpdTotal.getD (s.tpmTotal.getD 0 * 1440)
    successfulTasks := 0, failedTasks := 0, updatedAt := now }

/-- The `ON CONFLICT(model) DO UPDATE` branch: overwrite configuration, keep
the aggregate counters. -/
def seedUpdateRow (s : SeedRow) (now : Int) (r : ModelRow) : ModelRow :=
  { r with
    origin := s.origin
    rank := s.rank
    description := s.description
    enabled := s.enabled
    rpmAllowed := s.rpmAllowed.getD 0
    tpmTotal := s.tpmTotal.getD 0
    rpdTotal := s.rpdTotal.getD 0
    tpdTotal := s.tpdTotal.getD (s.tpmTotal.getD 0 * 1440)
    updatedAt := now }

/-- One iteration of the seedModels loop: skip incomplete rows, otherwise
upsert by unique model name. -/
def seedStep (now : Int) (models : List ModelRow) (s : SeedRow) : List ModelRow :=
  if seedComplete s then
    if models.any (fun r => r.name = s.name) then
      models.map (fun r => if r.name = s.name then seedUpdateRow s now r else r)
    else models ++ [seedInsertRow s now]
  else models

/-- SQLiteStorage.seedModels: fold the upsert over the catalog inside one
transaction; usage and task logs are never touched. -/
def seedModels (db : DB) (rows : List SeedRow) (now : Int) : DB :=
  { db with models := rows.foldl (seedStep now) db.models }

/-! ## MainAgent (mainAgent.ts): candidate selection -/

/-- Task complexity levels of `TaskAnalysis`. -/
inductive Complexity
  | simple
  | moderate
  | complex
deriving Repr, DecidableEq

/-- The `TaskAnalysis` record produced by selection. -/
structure TaskAnalysis where
  selectedModel : String
  reasoning : String
  estimatedTokens : Int
  taskComplexity : Complexity
deriving Repr, DecidableEq

/-- The `selectionStrategy` block of config.json used by MainAgent. -/
structure SelectionConfig where
  failureRateThreshold : ℚ
  minTokenBuffer : Int
deriving Repr, DecidableEq

/-- Result of one provider `generateContent` call (`text` and `tokensUsed`
may be absent, as in the adapter response type). -/
structure GenResult where
  text : Option String
  tokensUsed : Option Int
deriving Repr, DecidableEq

/-- Ambient environment of the selector and executor: which origins have a
configured adapter (AdapterFactory.getAdapter succeeds exactly on these),
the provider behaviour for worker calls (an `error` value models a thrown
provider exception), the selection configuration, and the current time. -/
structure Env where
  origins : List String
  provider : String → Except String GenResult
  cfg : SelectionConfig
  now : Int

/-- MainAgent.getAvailableModelsWithStats: stats rows kept when the model is
enabled, its origin has a configured adapter, its failure rate over the
default 86400 s window does not exceed the threshold, and at least one
request remains on both the minute and the day request quotas.  Token
quotas are not consulted here. -/
def getAvailableModelsWithStats (env : Env) (db : DB) : List StatRow :=
  (getModelStats db env.now).filter (fun m =>
    m.enabled &&
    env.origins.contains m.origin &&
    decide (getModelFailureRate db m.name 86400 env.now ≤ env.cfg.failureRateThreshold) &&
    decide (1 ≤ m.rpmAllowed - m.rpmUsed) &&
    decide (1 ≤ m.rpdTotal - m.rpdUsed))

/-- MainAgent.verifyModelCapacity: the model still appears in
`getAllAvailableModels (estimatedTokens + minTokenBuffer)`. -/
def verifyModelCapacity (env : Env) (db : DB) (modelName : String) (estimatedTokens : Int) : Bool :=
  (getAllAvailableModels db (estimatedTokens + env.cfg.minTokenBuffer) env.now).any
    (fun m => m.name = modelName)

/-- Rank comparison on stat rows, for the JS `sort((a, b) => a.rank - b.rank)`
in fallbackSelection. -/
def statRankLE (a b : StatRow) : Prop := a.rank ≤ b.rank

instance : DecidableRel statRankLE := fun a b => inferInstanceAs (Decidable (a.rank ≤ b.rank))

instance : IsTotal StatRow statRankLE := ⟨fun a b => Int.le_total a.rank b.rank⟩

instance : IsTrans StatRow statRankLE := ⟨fun _ _ _ h h' => Int.le_trans h h'⟩

/-- MainAgent.fallbackSelection: keep candidates whose minute token capacity
covers `estimatedTokens + minTokenBuffer`, sort ascending by rank, take the
first; otherwise take the first candidate unconditionally.  Returns `none`
only when the candidate list itself is empty (where the JS would throw). -/
def fallbackSelection (env : Env) (availableModels : List StatRow) (estimatedTokens : Int) :
    Option TaskAnalysis :=
  let suitable := (availableModels.filter (fun m =>
      decide (estimatedTokens + env.cfg.minTokenBuffer ≤ m.tpmTotal - m.tpmUsed))).insertionSort statRankLE
  match suitable.head?.orElse (fun _ => availableModels.head?) with
  | some sel => some
      { selectedModel := sel.name
        reasoning := "Fallback: highest-ranked available model with sufficient capacity"
        estimatedTokens := estimatedTokens
        taskComplexity := .moderate }
  | none => none

/-- The only error MainAgent.selectModelForTask lets escape: the emergency
fallback found no model either. -/
inductive SelectError
  | noModelsAndAgentFailed
deriving Repr, DecidableEq

/-- The emergency-fallback analysis built in the catch branch of
selectModelForTask. -/
def emergencyAnalysis (name : String) : TaskAnalysis :=
  { selectedModel := name
    reasoning := "Emergency fallback due to main agent error"
    estimatedTokens := 400
    taskComplexity := .moderate }

/-- MainAgent.selectModelForTask.  `oracle` is the Decision Oracle capability
(consultMainAgent): `none` models a thrown or unparseable answer, `some a`
a structurally valid answer.  Every exception inside the try block — the
empty-candidate throw included — lands in the catch branch, which consults
the unfiltered `getAllAvailableModels 400` and only fails when that list is
empty too. -/
def selectModelForTask (env : Env) (db : DB) (oracle : Option TaskAnalysis) :
    Except SelectError TaskAnalysis :=
  let inner : Option TaskAnalysis :=
    let availableModels := getAvailableModelsWithStats env db
    if availableModels.isEmpty then none
    else
      match oracle with
      | none => none
      | some analysis =>
        match availableModels.find? (fun m => m.name = analysis.selectedModel) with
        | none => fallbackSelection env availableModels analysis.estimatedTokens
        | some selected =>
          if verifyModelCapacity env db selected.name analysis.estimatedTokens
          then some analysis
          else fallbackSelection env availableModels analysis.estimatedTokens
  match inner with
  | some a => Except.ok a
  | none =>
    match getAllAvailableModels db 400 env.now with
    | [] => Except.error SelectError.noModelsAndAgentFailed
    | m :: _ => Except.ok (emergencyAnalysis m.name)

/-! ## TaskExecutor (taskExecutor.ts): execution with bounded (intended)
retry.  The mutual recursion executeWithModel ↔ retryWithFallback is made
total with a fuel parameter; every recursive call spends one unit. -/

/-- Result record of executeTask / executeWithModel. -/
structure TaskResult where
  success : Bool
  response : Option String
  error : Option String
  modelUsed : String
  tokensUsed : Int
  analysis : TaskAnalysis
deriving Repr, DecidableEq

/-- Outcome of an interpreter call: a TaskResult, the null return of
retryWithFallback (exhausted), or fuel exhaustion (the source diverges or
needs more depth than the given fuel). -/
inductive Out
  | res (r : TaskResult)
  | exhausted
  | fuelOut
deriving Repr, DecidableEq

/-- Token estimate used when the provider reports no (or a zero, which is
falsy in JS) token count: `Math.ceil((userTask.length + text.length) / 4)`. -/
def estimateTokens (userTask text : String) : Int :=
  (((userTask.length + text.length) + 3) / 4 : Nat)

/-- The try block of executeWithModel up to and including the logging of the
attempt itself (usage plus success outcome on success, one failed outcome
with zero tokens on any thrown error).  The retry that the catch branch
triggers afterwards is dispatched by the interpreter. -/
def attempt (env : Env) (db : DB) (modelName userTask taskType : String) :
    Except (String × DB) (String × Int × DB) :=
  match (getModelStats db env.now).find? (fun m => m.name = modelName) with
  | none =>
    let msg := "Model not found in database: " ++ modelName
    Except.error (msg, logTaskOutcome db modelName taskType false 0 (some msg) env.now)
  | some info =>
    if env.origins.contains info.origin then
      match env.provider modelName with
      | Except.ok r =>
        let text := r.text.getD ""
        let tokensUsed :=
          match r.tokensUsed with
          | some t => if t = 0 then estimateTokens userTask text else t
          | none => estimateTokens userTask text
        let db1 := logModelUsage db modelName 1 tokensUsed env.now
        let db2 := logTaskOutcome db1 modelName taskType true tokensUsed none env.now
        Except.ok (text, tokensUsed, db2)
      | Except.error msg =>
        Except.error (msg, logTaskOutcome db modelName taskType false 0 (some msg) env.now)
    else
      let msg := "No adapter configured for origin: " ++ info.origin
      Except.error (msg, logTaskOutcome db modelName taskType false 0 (some msg) env.now)

/-- The candidate list retryWithFallback recomputes: `getAllAvailableModels`
at the original token estimate, minus the already-tried models.  No
failure-rate filter is applied here. -/
def retryAvailable (env : Env) (db : DB) (estimatedTokens : Int) (tried : List String) : List Model :=
  (getAllAvailableModels db estimatedTokens env.now).filter (fun m => !(tried.contains m.name))

/-- Pending interpreter call: executeWithModel, retryWithFallback, or the
for-loop inside retryWithFallback over the remaining fallback candidates. -/
inductive Call
  | exec (modelName userTask taskType : String) (analysis : TaskAnalysis)
  | retry (userTask taskType failedModel : String) (analysis : TaskAnalysis) (tried : List String)
  | loop (pending : List Model) (userTask taskType failedModel : String)
      (analysis : TaskAnalysis) (tried : List String)

/-- Fuel-indexed interpreter for the executor.

`exec` mirrors executeWithModel: run the attempt; on success wrap the
success TaskResult; on a thrown error (failure already logged by `attempt`)
call retryWithFallback with the DEFAULT fresh empty tried set — exactly as
in the source, where the recursive call `this.retryWithFallback(userTask,
taskType, modelName, analysis)` omits the `triedModels` argument — and if
the retry yields null, return the failure TaskResult.

`retry` mirrors retryWithFallback: add the failed model to the tried set,
give up at three tried models, recompute availability minus tried, give up
when empty, else enter the candidate loop.

`loop` mirrors the `for (const fallbackModel of available)` body: look the
candidate up in stats (skip silently if absent), skip and mark tried if its
origin has no adapter, otherwise recurse into executeWithModel and return
its result (even a failure result). -/
def run (env : Env) : Nat → DB → Call → Out × DB
  | 0, db, _ => (Out.fuelOut, db)
  | fuel + 1, db, Call.exec modelName userTask taskType analysis =>
    match attempt env db modelName userTask taskType with
    | Except.ok (text, tokensUsed, db2) =>
      (Out.res
        { success := true, response := some text, error := none
          modelUsed := modelName, tokensUsed := tokensUsed, analysis := analysis }, db2)
    | Except.error (msg, db1) =>
      match run env fuel db1 (Call.retry userTask taskType modelName analysis []) with
      | (Out.res r, db2) => (Out.res r, db2)
      | (Out.exhausted, db2) =>
        (Out.res
          { success := false, response := none, error := some msg
            modelUsed := modelName, tokensUsed := 0, analysis := analysis }, db2)
      | (Out.fuelOut, db2) => (Out.fuelOut, db2)
  | fuel + 1, db, Call.retry userTask taskType failedModel analysis tried =>
    let tried1 := tried.insert failedModel
    if 3 ≤ tried1.length then (Out.exhausted, db)
    else
      let available := retryAvailable env db analysis.estimatedTokens tried1
      if available.isEmpty then (Out.exhausted, db)
      else run env fuel db (Call.loop available userTask taskType failedModel analysis tried1)
  | _ + 1, db, Call.loop [] _ _ _ _ _ => (Out.exhausted, db)
  | fuel + 1, db, Call.loop (m :: rest) userTask taskType failedModel analysis tried =>
    match (getModelStats db env.now).find? (fun s => s.name = m.name) with
    | none => run env fuel db (Call.loop rest userTask taskType failedModel analysis tried)
    | some info =>
      if env.origins.contains info.origin then
        run env fuel db (Call.exec m.name userTask taskType
          { analysis with
            selectedModel := m.name
            reasoning := "Fallback after " ++ failedModel ++ " failed" })
      else run env fuel db (Call.loop rest userTask taskType failedModel analysis (tried.insert m.name))

/-- TaskExecutor.executeWithModel as entered from executeTask. -/
def executeWithModel (env : Env) (fuel : Nat) (db : DB)
    (modelName userTask taskType : String) (analysis : TaskAnalysis) : Out × DB :=
  run env fuel db (Call.exec modelName userTask taskType analysis)

/-- The failure TaskResult the executeTask catch branch builds when model
selection throws. -/
def selectionFailureResult : TaskResult :=
  { success := false, response := none
    error := some "No models available and main agent failed"
    modelUsed := "none", tokensUsed := 0
    analysis :=
      { selectedModel := "none", reasoning := "Failed to select model"
        estimatedTokens := 0, taskComplexity := .simple } }

/-- TaskExecutor.executeTask: select a model via MainAgent, then execute with
it; a selection error becomes an ordinary failure result. -/
def executeTask (env : Env) (fuel : Nat) (db : DB) (oracle : Option TaskAnalysis)
    (userTask taskType : String) : Out × DB :=
  match selectModelForTask env db oracle with
  | Except.error _ => (Out.res selectionFailureResult, db)
  | Except.ok analysis =>
    run env fuel db (Call.exec analysis.selectedModel userTask taskType analysis)

/-! ## Per-name views and configuration projections (used to state the
seedModels and logTaskOutcome properties) -/

/-- Configuration slice of a `models` row: everything seedModels overwrites
except `updatedAt`, and nothing it must preserve. -/
structure ModelConfig where
  origin : String
  rank : Int
  description : String
  enabled : Bool
  rpmAllowed : Int
  tpmTotal : Int
  rpdTotal : Int
  tpdTotal : Int
deriving Repr, DecidableEq

/-- Configuration projection of a row. -/
def toConfig (r : ModelRow) : ModelConfig :=
  ⟨r.origin, r.rank, r.description, r.enabled, r.rpmAllowed, r.tpmTotal, r.rpdTotal, r.tpdTotal⟩

/-- The row stored under a given unique model name, if any. -/
def nameView (models : List ModelRow) (name : String) : Option ModelRow :=
  models.find? (fun r => r.name = name)

/-- Configuration stored under a model name. -/
def configOf (db : DB) (name : String) : Option ModelConfig :=
  (nameView db.models name).map toConfig

/-- Aggregate counters (successfulTasks, failedTasks) stored under a model
name. -/
def countersOf (db : DB) (name : String) : Option (Int × Int) :=
  (nameView db.models name).map (fun r => (r.successfulTasks, r.failedTasks))

/-- Counters of an optional row, with the SQL column defaults for a fresh
insert. -/
def countersAcc (acc : Option ModelRow) : Int × Int :=
  match acc with
  | some r => (r.successfulTasks, r.failedTasks)
  | none => (0, 0)

/-- Action of one seedModels iteration on the row stored under `name`. -/
def viewStep (now : Int) (name : String) (acc : Option ModelRow) (s : SeedRow) : Option ModelRow :=
  if seedComplete s ∧ s.name = name then
    match acc with
    | some r => some (seedUpdateRow s now r)
    | none => some (seedInsertRow s now)
  else acc

/-- Row holding the configuration of seed row `s` with explicit counters. -/
def mkSeedRow (s : SeedRow) (now : Int) (k : Int × Int) : ModelRow :=
  { seedInsertRow s now with successfulTasks := k.1, failedTasks := k.2 }

/-! ## Concrete scenarios referenced by the theorems -/

/-- Scenario row `alpha`: rank 1, origin `g`, ample quotas; counters and
`updatedAt` are parameters because outcome logging changes them as the
executor runs. -/
def rowA (s f u : Int) : ModelRow :=
  ⟨"alpha", "g", 1, "first", true, 100, 100000, 1000, 1000000, s, f, u⟩

/-- Scenario row `beta`: rank 2, otherwise like `alpha`. -/
def rowB (s f u : Int) : ModelRow :=
  ⟨"beta", "g", 2, "second", true, 100, 100000, 1000, 1000000, s, f, u⟩

/-- Two-model ledger with no usage events and parametric outcome state. -/
def dbAB (sA fA uA sB fB uB : Int) (tl : List OutcomeEvent) : DB :=
  ⟨[rowA sA fA uA, rowB sB fB uB], [], tl⟩

/-- Environment in which both origins are configured and every provider call
throws. -/
def envFail : Env := ⟨["g"], fun _ => .error "provider down", ⟨20, 100⟩, 1000000⟩

/-- The `Model` projection of `alpha` as returned by getAllAvailableModels. -/
def modelA : Model := ⟨"alpha", "g", 1, "first", true, 100, 100000, 1000, 1000000⟩

/-- The `Model` projection of `beta`. -/
def modelB : Model := ⟨"beta", "g", 2, "second", true, 100, 100000, 1000, 1000000⟩

/-- Failed outcome event logged at the scenario clock. -/
def failEvt (m t msg : String) : OutcomeEvent := ⟨m, t, false, some msg, 0, 1000000⟩

/-- Failure TaskResult built by the catch branch of executeWithModel. -/
def failRes (msg name sm rs : String) (tc : Complexity) : TaskResult :=
  ⟨false, none, some msg, name, 0, ⟨sm, rs, 500, tc⟩⟩

/-- Oracle answer selecting `alpha` for the two-model scenario. -/
def analysisA : TaskAnalysis := ⟨"alpha", "oracle pick", 500, .moderate⟩

/-- Ledger for the token-quota gap scenario: `mzero` has healthy request
quotas but zero token ceilings. -/
def dbTok : DB := ⟨[⟨"mzero", "g", 1, "d", true, 10, 0, 10, 0, 0, 0, 0⟩], [], []⟩

/-- Environment with origin `g` configured. -/
def envTok : Env := ⟨["g"], fun _ => .error "x", ⟨20, 100⟩, 1000⟩

/-- Ledger whose only model has an unconfigured origin. -/
def dbNoAdapter : DB := ⟨[⟨"nox", "gone", 1, "d", true, 10, 10000, 10, 10000, 0, 0, 0⟩], [], []⟩

/-- Environment in which origin `gone` has no adapter. -/
def envNoAdapter : Env := ⟨["g"], fun _ => .error "x", ⟨20, 100⟩, 1000⟩

/-- Ledger for the emergency-vs-deterministic fallback scenario: `ada` (rank
1) has no adapter, `bee` (rank 2) has one. -/
def dbEm : DB :=
  ⟨[⟨"ada", "nope", 1, "d", true, 10, 10000, 10, 10000, 0, 0, 0⟩,
    ⟨"bee", "g", 2, "d", true, 10, 10000, 10, 10000, 0, 0, 0⟩], [], []⟩

/-- Environment for the emergency-fallback scenario. -/
def envEm : Env := ⟨["g"], fun _ => .error "x", ⟨20, 100⟩, 1000⟩

/-- Ledger for the retry-eligibility scenario: `alpha` carries three recent
failed outcomes (failure rate 100 %), `beta` none. -/
def dbHot : DB :=
  ⟨[rowA 0 3 0, rowB 0 0 0], [],
   [⟨"alpha", "general", false, some "x", 0, 999999⟩,
    ⟨"alpha", "general", false, some "x", 0, 999999⟩,
    ⟨"alpha", "general", false, some "x", 0, 999999⟩]⟩

/-- Environment in which `alpha` succeeds and everything else throws. -/
def envHot : Env :=
  ⟨["g"], fun m => if m = "alpha" then .ok ⟨some "ok", some 10⟩ else .error "down",
   ⟨20, 100⟩, 1000000⟩

/-- Original analysis for the retry-eligibility scenario (beta had been
selected and failed). -/
def anHot : TaskAnalysis := ⟨"beta", "picked", 500, .moderate⟩

/-- Ledger for the outcome-atomicity scenario. -/
def dbAtom : DB := ⟨[⟨"m", "g", 1, "d", true, 10, 10, 10, 10, 4, 2, 0⟩], [], []⟩

/-! # Theorems -/

/-- Sanity check: window sums filter by model and timestamp. -/
example : sumRequestsSince [⟨"a", 2, 10, 100⟩, ⟨"a", 3, 5, 30⟩, ⟨"b", 7, 7, 100⟩] "a" 50 = 2 := by
  decide

/-- In the two-model all-providers-failing scenario, every interpreter call
of the executeWithModel / retryWithFallback cycle consumes all its fuel:
the source recursion diverges.  Each conjunct quantifies over the parts of
the state the cycle changes (counters, `updatedAt`, outcome log, the
analysis strings), so the induction closes. -/
lemma run_pingpong (f : Nat) :
    ∀ (sA fA uA sB fB uB : Int) (tl : List OutcomeEvent) (u t sm rs : String) (tc : Complexity),
      (run envFail f (dbAB sA fA uA sB fB uB tl) (.exec "alpha" u t ⟨sm, rs, 500, tc⟩)).1 = Out.fuelOut ∧
      (run envFail f (dbAB sA fA uA sB fB uB tl) (.exec "beta" u t ⟨sm, rs, 500, tc⟩)).1 = Out.fuelOut ∧
      (run envFail f (dbAB sA fA uA sB fB uB tl) (.retry u t "alpha" ⟨sm, rs, 500, tc⟩ [])).1 = Out.fuelOut ∧
      (run envFail f (dbAB sA fA uA sB fB uB tl) (.retry u t "beta" ⟨sm, rs, 500, tc⟩ [])).1 = Out.fuelOut ∧
      (run envFail f (dbAB sA fA uA sB fB uB tl) (.loop [modelB] u t "alpha" ⟨sm, rs, 500, tc⟩ ["alpha"])).1 = Out.fuelOut ∧
      (run envFail f (dbAB sA fA uA sB fB uB tl) (.loop [modelA] u t "beta" ⟨sm, rs, 500, tc⟩ ["beta"])).1 = Out.fuelOut := by
  induction f with
  | zero => intros; exact ⟨rfl, rfl, rfl, rfl, rfl, rfl⟩
  | succ f ih =>
    intro sA fA uA sB fB uB tl u t sm rs tc
    refine ⟨?_, ?_, ?_, ?_, ?_, ?_⟩
    · have h := (ih sA (fA + 1) 1000000 sB fB uB (tl ++ [failEvt "alpha" t "provider down"]) u t sm rs tc).2.2.1
      have key : run envFail (f + 1) (dbAB sA fA uA sB fB uB tl) (.exec "alpha" u t ⟨sm, rs, 500, tc⟩)
          = (match run envFail f (dbAB sA (fA + 1) 1000000 sB fB uB (tl ++ [failEvt "alpha" t "provider down"]))
                (.retry u t "alpha" ⟨sm, rs, 500, tc⟩ []) with
             | (Out.res r, db2) => (Out.res r, db2)
             | (Out.exhausted, db2) => (Out.res (failRes "provider down" "alpha" sm rs tc), db2)
             | (Out.fuelOut, db2) => (Out.fuelOut, db2)) := rfl
      rw [key]
      rcases he : run envFail f (dbAB sA (fA + 1) 1000000 sB fB uB (tl ++ [failEvt "alpha" t "provider down"]))
          (.retry u t "alpha" ⟨sm, rs, 500, tc⟩ []) with ⟨o, db2⟩
      rw [he] at h
      cases o with
      | res r => exact absurd h (by simp)
      | exhausted => exact absurd h (by simp)
      | fuelOut => rfl
    · have h := (ih sA fA uA sB (fB + 1) 1000000 (tl ++ [failEvt "beta" t "provider down"]) u t sm rs tc).2.2.2.1
      have key : run envFail (f + 1) (dbAB sA fA uA sB fB uB tl) (.exec "beta" u t ⟨sm, rs, 500, tc⟩)
          = (match run envFail f (dbAB sA fA uA sB (fB + 1) 1000000 (tl ++ [failEvt "beta" t "provider down"]))
                (.retry u t "beta" ⟨sm, rs, 500, tc⟩ []) with
             | (Out.res r, db2) => (Out.res r, db2)
             | (Out.exhausted, db2) => (Out.res (failRes "provider down" "beta" sm rs tc), db2)
             | (Out.fuelOut, db2) => (Out.fuelOut, db2)) := rfl
      rw [key]
      rcases he : run envFail f (dbAB sA fA uA sB (fB + 1) 1000000 (tl ++ [failEvt "beta" t "provider down"]))
          (.retry u t "beta" ⟨sm, rs, 500, tc⟩ []) with ⟨o, db2⟩
      rw [he] at h
      cases o with
      | res r => exact absurd h (by simp)
      | exhausted => exact absurd h (by simp)
      | fuelOut => rfl
    · exact (ih sA fA uA sB fB uB tl u t sm rs tc).2.2.2.2.1
    · exact (ih sA fA uA sB fB uB tl u t sm rs tc).2.2.2.2.2
    · exact (ih sA fA uA sB fB uB tl u t "beta" "Fallback after alpha failed" tc).2.1
    · exact (ih sA fA uA sB fB uB tl u t "alpha" "Fallback after beta failed" tc).1

/-- C1.  REFUTED (code bug).  With exactly two eligible candidates (`alpha`
and `beta`, both enabled, both with a configured adapter and ample quota on
all four windows) whose provider calls always throw, `executeTask` never
terminates: for every fuel bound the interpreter runs out of fuel, so
neither the Succeeded nor the Exhausted outcome is ever reached — the spec
instead requires Exhausted after exactly min(3, 2) = 2 distinct models.
The cause is visible in the exec case of `run`, mirroring the source: the
recursive `retryWithFallback` call from the catch of `executeWithModel`
omits the `triedModels` argument, so the tried set restarts from ∅ each
cycle and the `size ≥ 3` guard never fires; the executor ping-pongs
`alpha → beta → alpha → ...` forever.  The second conjunct confirms that
both models are candidates at selection time, so the scenario is the one
the claim speaks about. -/
theorem executeTask_two_failing_models_diverges :
    (∀ fuel : Nat,
      (executeTask envFail fuel (dbAB 0 0 0 0 0 0 []) (some analysisA) "task" "general").1 =
        Out.fuelOut) ∧
    (getAvailableModelsWithStats envFail (dbAB 0 0 0 0 0 0 [])).map (fun m => m.name) =
      ["alpha", "beta"] := by
  constructor
  · intro fuel
    exact (run_pingpong fuel 0 0 0 0 0 0 [] "task" "general" "alpha" "oracle pick" .moderate).1
  · rfl

/-- Membership in the availability query of the ledger, characterized over the
raw `models` rows. -/
lemma mem_getAllAvailableModels {db : DB} {mt now : Int} {m : Model} :
    m ∈ getAllAvailableModels db mt now ↔
      ∃ r, r ∈ db.models ∧ r.enabled = true ∧ availableOk db mt now r ∧ m = toModel r := by
  unfold getAllAvailableModels
  simp only [List.mem_map, List.mem_filter, List.mem_insertionSort, decide_eq_true_eq]
  constructor
  · rintro ⟨r, ⟨⟨hr, he⟩, hok⟩, hm⟩
    exact ⟨r, hr, he, hok, hm.symm⟩
  · rintro ⟨r, hr, he, hok, hm⟩
    exact ⟨r, ⟨⟨hr, he⟩, hok⟩, hm.symm⟩

/-- The availability query is sorted ascending by rank. -/
lemma sorted_getAllAvailableModels (db : DB) (mt now : Int) :
    (getAllAvailableModels db mt now).Pairwise (fun a b => a.rank ≤ b.rank) := by
  unfold getAllAvailableModels
  refine List.Pairwise.map toModel (fun a b h => h) ?_
  refine List.Pairwise.filter _ ?_
  exact List.sorted_insertionSort rankLE _

/-- Membership in getModelStats, characterized over the raw rows. -/
lemma mem_getModelStats {db : DB} {now : Int} {m : StatRow} :
    m ∈ getModelStats db now ↔ ∃ r, r ∈ db.models ∧ m = toStatRow db now r := by
  unfold getModelStats
  simp only [List.mem_map, List.mem_insertionSort]
  constructor
  · rintro ⟨r, hr, hm⟩; exact ⟨r, hr, hm.symm⟩
  · rintro ⟨r, hr, hm⟩; exact ⟨r, hr, hm.symm⟩

/-- C3.  CONFIRMED.  `getAllAvailableModels db minTokens now` contains a
model exactly when some enabled ledger row projects to it and, for the
usage sums `getModelUsage` reports at `now`, at least 1 request remains on
rpm and rpd and at least `minTokens` tokens remain on tpm and tpd; the
result is sorted ascending by rank.  In particular no disabled model and no
model lacking capacity on any of the four quotas ever appears. -/
theorem getAllAvailableModels_spec (db : DB) (minTokens now : Int) :
    (∀ m, m ∈ getAllAvailableModels db minTokens now ↔
      ∃ r, r ∈ db.models ∧ r.enabled = true ∧ m = toModel r ∧
        1 ≤ r.rpmAllowed - (getModelUsage db r.name now).rpmUsed ∧
        minTokens ≤ r.tpmTotal - (getModelUsage db r.name now).tpmUsed ∧
        1 ≤ r.rpdTotal - (getModelUsage db r.name now).rpdUsed ∧
        minTokens ≤ r.tpdTotal - (getModelUsage db r.name now).tpdUsed) ∧
    (getAllAvailableModels db minTokens now).Pairwise (fun a b => a.rank ≤ b.rank) := by
  constructor
  · intro m
    rw [mem_getAllAvailableModels]
    constructor
    · rintro ⟨r, hr, he, hok, hm⟩
      exact ⟨r, hr, he, hm, hok.1, hok.2.1, hok.2.2.1, hok.2.2.2⟩
    · rintro ⟨r, hr, he, hm, h1, h2, h3, h4⟩
      exact ⟨r, hr, he, ⟨h1, h2, h3, h4⟩, hm⟩
  · exact sorted_getAllAvailableModels db minTokens now

/-- C5 (amended).  The candidate set built by selectModelForTask keeps
exactly the stat rows whose underlying model is enabled, whose origin has a
configured adapter, whose failure rate is within the threshold, and which
have at least one request left on rpm and rpd.  Token quotas (tpm, tpd) are
NOT consulted when the candidate set is built — see
`candidateSet_ignores_token_quota`. -/
theorem candidateSet_spec (env : Env) (db : DB) :
    ∀ m, m ∈ getAvailableModelsWithStats env db ↔
      ∃ r, r ∈ db.models ∧ m = toStatRow db env.now r ∧ r.enabled = true ∧
        env.origins.contains r.origin = true ∧
        getModelFailureRate db r.name 86400 env.now ≤ env.cfg.failureRateThreshold ∧
        1 ≤ r.rpmAllowed - (getModelUsage db r.name env.now).rpmUsed ∧
        1 ≤ r.rpdTotal - (getModelUsage db r.name env.now).rpdUsed := by
  intro m
  unfold getAvailableModelsWithStats
  rw [List.mem_filter]
  constructor
  · rintro ⟨hmem, hp⟩
    obtain ⟨r, hr, rfl⟩ := mem_getModelStats.mp hmem
    simp only [Bool.and_eq_true, decide_eq_true_eq] at hp
    exact ⟨r, hr, rfl, hp.1.1.1.1, hp.1.1.1.2, hp.1.1.2, hp.1.2, hp.2⟩
  · rintro ⟨r, hr, rfl, he, ho, hrate, hrpm, hrpd⟩
    refine ⟨mem_getModelStats.mpr ⟨r, hr, rfl⟩, ?_⟩
    simp only [Bool.and_eq_true, decide_eq_true_eq]
    exact ⟨⟨⟨⟨he, ho⟩, hrate⟩, hrpm⟩, hrpd⟩

/-- C5 counterexample.  `mzero` is enabled, has a configured adapter, a
clean failure history and free request quotas, but its token ceilings are
zero: the ledger itself reports no availability even for a single token,
yet `mzero` is in the candidate set.  This falsifies the claim that every
candidate has remaining capacity on all four quotas sufficient for the
token floor of the task. -/
theorem candidateSet_ignores_token_quota :
    (getAvailableModelsWithStats envTok dbTok).map
        (fun m => (m.name, m.tpmTotal - m.tpmUsed, m.tpdTotal - m.tpdUsed)) = [("mzero", 0, 0)] ∧
    getAllAvailableModels dbTok 1 1000 = [] := ⟨rfl, rfl⟩

/-- C8 (amended).  The candidate list retryWithFallback iterates is exactly
the availability the ledger reports at the original token estimate minus the
already-tried models; candidates are NOT re-filtered by failure rate — see
`retry_attempts_high_failure_model`. -/
theorem retryAvailable_spec (env : Env) (db : DB) (est : Int) (tried : List String) :
    ∀ m, m ∈ retryAvailable env db est tried ↔
      (∃ r, r ∈ db.models ∧ r.enabled = true ∧ m = toModel r ∧
        1 ≤ r.rpmAllowed - (getModelUsage db r.name env.now).rpmUsed ∧
        est ≤ r.tpmTotal - (getModelUsage db r.name env.now).tpmUsed ∧
        1 ≤ r.rpdTotal - (getModelUsage db r.name env.now).rpdUsed ∧
        est ≤ r.tpdTotal - (getModelUsage db r.name env.now).tpdUsed) ∧
      tried.contains m.name = false := by
  intro m
  unfold retryAvailable
  rw [List.mem_filter, mem_getAllAvailableModels]
  simp only [Bool.not_eq_true']
  constructor
  · rintro ⟨⟨r, hr, he, hok, hm⟩, ht⟩
    exact ⟨⟨r, hr, he, hm, hok.1, hok.2.1, hok.2.2.1, hok.2.2.2⟩, ht⟩
  · rintro ⟨⟨r, hr, he, hm, h1, h2, h3, h4⟩, ht⟩
    exact ⟨⟨r, hr, he, ⟨h1, h2, h3, h4⟩, hm⟩, ht⟩

/-- C8 counterexample.  `alpha` has a 100 % failure rate over the default
window — far above the 20 % threshold the selector applies — yet after
`beta` fails, retryWithFallback attempts `alpha` and returns its result:
fallback candidates are not held to the selection-time eligibility rule. -/
theorem retry_attempts_high_failure_model :
    (run envHot 5 dbHot (.retry "u" "t" "beta" anHot [])).1 =
      Out.res ⟨true, some "ok", none, "alpha", 10, ⟨"alpha", "Fallback after beta failed", 500, .moderate⟩⟩ ∧
    getModelFailureRate dbHot "alpha" 86400 1000000 = 100 ∧
    envHot.cfg.failureRateThreshold = 20 := by
  refine ⟨rfl, ?_, rfl⟩
  have h1 : getModelFailureRate dbHot "alpha" 86400 1000000 = (((3 : ℕ) : ℚ) / ((3 : ℕ) : ℚ)) * 100 := rfl
  rw [h1]
  norm_num

/-- C6 counterexample.  `nox` is enabled with ample quota but its origin has
no adapter, so the candidate set is empty; the claim demands a surfaced
CapacityExhaustedError, but selectModelForTask catches its own throw and
returns the emergency decision naming `nox` — whose provider cannot even be
constructed. -/
theorem emptyCandidates_absorbed :
    getAvailableModelsWithStats envNoAdapter dbNoAdapter = [] ∧
    selectModelForTask envNoAdapter dbNoAdapter (some ⟨"nox", "r", 100, .simple⟩) =
      .ok (emergencyAnalysis "nox") := ⟨rfl, rfl⟩

/-- C6 (amended).  When the candidate set is empty, the empty-candidate
throw is absorbed by the catch branch of selectModelForTask itself: the selector
fails only when the unfiltered `getAllAvailableModels 400` is empty too,
and otherwise returns an emergency decision naming the first model of that
list. -/
theorem select_empty_candidates_emergency (env : Env) (db : DB) (oracle : Option TaskAnalysis)
    (h : getAvailableModelsWithStats env db = []) :
    (getAllAvailableModels db 400 env.now = [] →
      selectModelForTask env db oracle = .error .noModelsAndAgentFailed) ∧
    (∀ m ms, getAllAvailableModels db 400 env.now = m :: ms →
      selectModelForTask env db oracle = .ok (emergencyAnalysis m.name)) := by
  have key : selectModelForTask env db oracle =
      match getAllAvailableModels db 400 env.now with
      | [] => .error .noModelsAndAgentFailed
      | m :: _ => .ok (emergencyAnalysis m.name) := by
    unfold selectModelForTask
    rw [h]
    rfl
  constructor
  · intro h2; rw [key, h2]
  · intro m ms h2; rw [key, h2]

/-- Witness for `select_empty_candidates_emergency` at a concrete input:
the empty-candidate ledger with an unconfigured origin yields the emergency
decision, not an error. -/
theorem select_empty_candidates_emergency_witness :
    selectModelForTask envNoAdapter dbNoAdapter none = .ok (emergencyAnalysis "nox") :=
  (select_empty_candidates_emergency envNoAdapter dbNoAdapter none rfl).2
    ⟨"nox", "gone", 1, "d", true, 10, 10000, 10, 10000⟩ [] rfl

/-- C7 counterexample.  With candidate set exactly `bee` and the oracle call
failing to parse, the deterministic fallback over the candidate set would
pick `bee`, but selectModelForTask instead takes the emergency path and
returns `ada` — a model outside the candidate set (its origin has no
adapter).  The same deterministic rule therefore does NOT apply to the
oracle-error trigger. -/
theorem parse_error_emergency_counterexample :
    selectModelForTask envEm dbEm none = .ok (emergencyAnalysis "ada") ∧
    (getAvailableModelsWithStats envEm dbEm).map (fun m => m.name) = ["bee"] ∧
    (fallbackSelection envEm (getAvailableModelsWithStats envEm dbEm) 400).map
      (fun a => a.selectedModel) = some "bee" := ⟨rfl, rfl, rfl⟩

/-- C7 (amended).  The deterministic fallback (token-capacity filter, rank
sort, first element, else first candidate) is returned exactly when the
structurally valid oracle answer is discarded — named model not in the
candidate set, or named model failing the capacity re-check.  When the
oracle call itself errors or its answer is unparseable, the catch branch
runs the EMERGENCY fallback instead: first model of the unfiltered
`getAllAvailableModels 400`, with an error surfaced only when that list is
empty. -/
theorem select_fallback_paths (env : Env) (db : DB) (a fb : TaskAnalysis) :
    (getAvailableModelsWithStats env db ≠ [] →
      (getAvailableModelsWithStats env db).find? (fun m => m.name = a.selectedModel) = none →
      fallbackSelection env (getAvailableModelsWithStats env db) a.estimatedTokens = some fb →
      selectModelForTask env db (some a) = .ok fb) ∧
    (∀ sel, (getAvailableModelsWithStats env db).find? (fun m => m.name = a.selectedModel) = some sel →
      verifyModelCapacity env db sel.name a.estimatedTokens = false →
      fallbackSelection env (getAvailableModelsWithStats env db) a.estimatedTokens = some fb →
      selectModelForTask env db (some a) = .ok fb) ∧
    (selectModelForTask env db none =
      match getAllAvailableModels db 400 env.now with
      | [] => Except.error SelectError.noModelsAndAgentFailed
      | m :: _ => Except.ok (emergencyAnalysis m.name)) := by
  refine ⟨?_, ?_, ?_⟩
  · intro hne hfind hfb
    rcases hc : getAvailableModelsWithStats env db with _ | ⟨c, cs⟩
    · exact absurd hc hne
    · rw [hc] at hfind hfb
      unfold selectModelForTask
      rw [hc]
      dsimp only
      rw [hfind, hfb]
      rfl
  · intro sel hfind hcap hfb
    rcases hc : getAvailableModelsWithStats env db with _ | ⟨c, cs⟩
    · rw [hc] at hfind; exact absurd hfind (by simp)
    · rw [hc] at hfind hfb
      unfold selectModelForTask
      rw [hc]
      simp only [List.isEmpty_cons, Bool.false_eq_true, if_false, hfind, hcap, hfb]
  · rcases hc : getAvailableModelsWithStats env db with _ | ⟨c, cs⟩
    · unfold selectModelForTask
      rw [hc]
      rfl
    · unfold selectModelForTask
      rw [hc]
      rfl

/-- Witness for `select_fallback_paths`: all three branches exercised at
concrete inputs — oracle naming an absent model (`zz`), oracle naming a
candidate without token capacity (`mzero`), and an unparseable oracle
answer. -/
theorem select_fallback_paths_witness :
    selectModelForTask envEm dbEm (some ⟨"zz", "r", 400, .simple⟩) =
      .ok ⟨"bee", "Fallback: highest-ranked available model with sufficient capacity", 400, .moderate⟩ ∧
    selectModelForTask envTok dbTok (some ⟨"mzero", "r", 100, .simple⟩) =
      .ok ⟨"mzero", "Fallback: highest-ranked available model with sufficient capacity", 100, .moderate⟩ ∧
    selectModelForTask envEm dbEm none = .ok (emergencyAnalysis "ada") := by
  refine ⟨?_, ?_, ?_⟩
  · exact (select_fallback_paths envEm dbEm ⟨"zz", "r", 400, .simple⟩
      ⟨"bee", "Fallback: highest-ranked available model with sufficient capacity", 400, .moderate⟩).1
      (by decide) rfl rfl
  · exact (select_fallback_paths envTok dbTok ⟨"mzero", "r", 100, .simple⟩
      ⟨"mzero", "Fallback: highest-ranked available model with sufficient capacity", 100, .moderate⟩).2.1
      ⟨"mzero", "g", 1, "d", true, 10, 0, 10, 0, 0, 0, 0, 0, 0, 0⟩ rfl rfl rfl
  · rw [(select_fallback_paths envEm dbEm ⟨"zz", "r", 400, .simple⟩ ⟨"zz", "r", 400, .simple⟩).2.2]
    rfl



lemma nameView_map (g : ModelRow → ModelRow) (hg : ∀ r, (g r).name = r.name)
    (models : List ModelRow) (name : String) :
    nameView (models.map g) name = (nameView models name).map g := by
  unfold nameView
  rw [List.find?_map]
  have hp : ((fun r : ModelRow => decide (r.name = name)) ∘ g) =
      (fun r : ModelRow => decide (r.name = name)) := by
    funext r
    simp [Function.comp, hg]
  rw [hp]

/-- C2 counterexample.  logTaskOutcome issues its INSERT and its UPDATE as
two separate statements with no enclosing transaction (contrast seedModels,
which wraps its loop in `db.transaction`), so under better-sqlite3 each
statement commits on its own.  The trace of committed states therefore
contains a state in which the outcome event row exists but the aggregate
counter has not been incremented — exactly the post-state the claim says
cannot exist. -/
theorem logTaskOutcome_intermediate_commit :
    ∃ s ∈ logTaskOutcomeCommits dbAtom "m" "general" true 10 none 50,
      s.taskLogs.length = dbAtom.taskLogs.length + 1 ∧ countersOf s "m" = countersOf dbAtom "m" := by
  decide

/-- C2 (amended).  In uninterrupted sequential execution logTaskOutcome
does append exactly one OutcomeEvent (with the JS `errorMessage || null`
coercion) and does increment exactly the counter of the matching model —
successfulTasks on success, failedTasks on failure — leaving usage logs,
windowed usage sums, and the counters of every other model untouched.  The two
effects are however two separate autocommitted statements, not one
transaction; see `logTaskOutcome_intermediate_commit`. -/
theorem logTaskOutcome_effects (db : DB) (m tt : String) (s : Bool) (tok : Int)
    (err : Option String) (now : Int) :
    (logTaskOutcome db m tt s tok err now).taskLogs
        = db.taskLogs ++ [⟨m, tt, s, orNull err, tok, now⟩] ∧
    (logTaskOutcome db m tt s tok err now).usageLogs = db.usageLogs ∧
    (∀ mdl now2, getModelUsage (logTaskOutcome db m tt s tok err now) mdl now2 =
      getModelUsage db mdl now2) ∧
    (∀ name, countersOf (logTaskOutcome db m tt s tok err now) name =
      if name = m then
        (countersOf db name).map (fun k => if s then (k.1 + 1, k.2) else (k.1, k.2 + 1))
      else countersOf db name) := by
  refine ⟨rfl, rfl, fun mdl now2 => rfl, ?_⟩
  intro name
  have hmodels : (logTaskOutcome db m tt s tok err now).models =
      db.models.map (fun r => if r.name = m then
        (if s then { r with successfulTasks := r.successfulTasks + 1, updatedAt := now }
         else { r with failedTasks := r.failedTasks + 1, updatedAt := now })
        else r) := rfl
  have hg : ∀ r : ModelRow, ((fun r : ModelRow => if r.name = m then
        (if s then { r with successfulTasks := r.successfulTasks + 1, updatedAt := now }
         else { r with failedTasks := r.failedTasks + 1, updatedAt := now })
        else r) r).name = r.name := by
    intro r
    by_cases h1 : r.name = m
    · cases s <;> simp [h1]
    · simp [h1]
  unfold countersOf
  rw [hmodels, nameView_map _ hg]
  cases hv : nameView db.models name with
  | none => simp [hv]
  | some r =>
    have hr : r.name = name := by
      have := List.find?_some hv
      simpa using this
    by_cases hm : name = m
    · subst hm
      cases s <;> simp [hr]
    · have : r.name ≠ m := by rw [hr]; exact hm
      cases s <;> simp [this, hm]



lemma getModelUsage_log_self (db : DB) (m : String) (r t ts now : Int) (h : now - 60 ≤ ts) :
    getModelUsage (logModelUsage db m r t ts) m now =
      ⟨m, (getModelUsage db m now).rpmUsed + r, (getModelUsage db m now).tpmUsed + t,
          (getModelUsage db m now).rpdUsed + r, (getModelUsage db m now).tpdUsed + t⟩ := by
  have hd : now - 86400 ≤ ts := by omega
  unfold getModelUsage logModelUsage sumRequestsSince sumTokensSince
  simp [List.filter_append, List.filter_cons, show now ≤ ts + 60 by omega,
    show now ≤ ts + 86400 by omega]

lemma logUsage_batch (m : String) (now : Int) :
    ∀ (calls : List (Int × Int × Int)) (db : DB),
      (∀ c ∈ calls, now - 60 ≤ c.2.2) →
      getModelUsage (calls.foldl (fun d c => logModelUsage d m c.1 c.2.1 c.2.2) db) m now =
        ⟨m, (getModelUsage db m now).rpmUsed + (calls.map (fun c => c.1)).sum,
            (getModelUsage db m now).tpmUsed + (calls.map (fun c => c.2.1)).sum,
            (getModelUsage db m now).rpdUsed + (calls.map (fun c => c.1)).sum,
            (getModelUsage db m now).tpdUsed + (calls.map (fun c => c.2.1)).sum⟩ := by
  intro calls
  induction calls with
  | nil =>
    intro db h
    simp
    rfl
  | cons c cs ih =>
    intro db h
    have hc := h c (List.mem_cons_self c cs)
    have step := getModelUsage_log_self db m c.1 c.2.1 c.2.2 now hc
    have ihr := ih (logModelUsage db m c.1 c.2.1 c.2.2) (fun x hx => h x (List.mem_cons_of_mem c hx))
    simp only [List.foldl_cons, List.map_cons, List.sum_cons] at *
    rw [ihr, step]
    simp [ModelUsage.mk.injEq]
    omega


lemma usage_window_expiry (db : DB) (m : String) (now nowLater : Int)
    (h1 : ∀ e ∈ db.usageLogs, e.model = m → e.timestamp ≤ now)
    (h2 : now + 60 < nowLater) :
    ((getModelUsage db m nowLater).rpmUsed = 0 ∧ (getModelUsage db m nowLater).tpmUsed = 0) ∧
    ((∀ e ∈ db.usageLogs, e.model = m → nowLater - 86400 ≤ e.timestamp) →
      (getModelUsage db m nowLater).rpdUsed = (getModelUsage db m now).rpdUsed ∧
      (getModelUsage db m nowLater).tpdUsed = (getModelUsage db m now).tpdUsed) := by
  have hmin : db.usageLogs.filter
      (fun e => decide (e.model = m ∧ nowLater - 60 ≤ e.timestamp)) = [] := by
    rw [List.filter_eq_nil_iff]
    intro e he
    simp only [decide_eq_true_eq, not_and]
    intro hm
    have := h1 e he hm
    omega
  constructor
  · constructor
    · show (sumRequestsSince db.usageLogs m (nowLater - 60)) = 0
      unfold sumRequestsSince
      rw [hmin]
      rfl
    · show (sumTokensSince db.usageLogs m (nowLater - 60)) = 0
      unfold sumTokensSince
      rw [hmin]
      rfl
  · intro h3
    have hday : db.usageLogs.filter
        (fun e => decide (e.model = m ∧ nowLater - 86400 ≤ e.timestamp)) =
      db.usageLogs.filter (fun e => decide (e.model = m ∧ now - 86400 ≤ e.timestamp)) := by
      apply List.filter_congr
      intro e he
      by_cases hm : e.model = m
      · have ha := h3 e he hm
        have hb : now - 86400 ≤ e.timestamp := by omega
        simp [hm, ha, hb]
      · simp [hm]
    constructor
    · show (sumRequestsSince db.usageLogs m (nowLater - 86400)) =
        (sumRequestsSince db.usageLogs m (now - 86400))
      unfold sumRequestsSince
      rw [hday]
    · show (sumTokensSince db.usageLogs m (nowLater - 86400)) =
        (sumTokensSince db.usageLogs m (now - 86400))
      unfold sumTokensSince
      rw [hday]


lemma nameView_seedStep (now : Int) (name : String) (models : List ModelRow) (s : SeedRow) :
    nameView (seedStep now models s) name = viewStep now name (nameView models name) s := by
  unfold seedStep viewStep
  by_cases hcs : seedComplete s
  · by_cases hpresent : models.any (fun r => r.name = s.name) = true
    · rw [if_pos hcs, if_pos hpresent]
      have hg : ∀ r : ModelRow,
          ((fun r : ModelRow => if r.name = s.name then seedUpdateRow s now r else r) r).name = r.name := by
        intro r
        by_cases h : r.name = s.name <;> simp [h, seedUpdateRow]
      rw [show (models.map fun r => if r.name = s.name then seedUpdateRow s now r else r) =
          models.map (fun r => if r.name = s.name then seedUpdateRow s now r else r) from rfl]
      rw [nameView_map _ hg]
      by_cases hn : s.name = name
      · rw [if_pos ⟨hcs, hn⟩]
        cases hv : nameView models name with
        | none =>
          exfalso
          obtain ⟨x, hx, hpx⟩ := List.any_eq_true.mp hpresent
          have h2 : List.find? (fun r : ModelRow => r.name = name) models = none := hv
          rw [List.find?_eq_none] at h2
          exact absurd (by simpa [hn] using hpx) (by simpa using h2 x hx)
        | some r =>
          have hr : r.name = name := by simpa using List.find?_some hv
          simp [hr, hn]
      · rw [if_neg (fun h => hn h.2)]
        cases hv : nameView models name with
        | none => rfl
        | some r =>
          have hr : r.name = name := by simpa using List.find?_some hv
          have : ¬ r.name = s.name := by rw [hr]; exact fun h => hn h.symm
          simp [this]
    · rw [if_pos hcs, if_neg hpresent]
      unfold nameView
      rw [List.find?_append]
      by_cases hn : s.name = name
      · rw [if_pos ⟨hcs, hn⟩]
        have hnone : List.find? (fun r : ModelRow => r.name = name) models = none := by
          rw [List.find?_eq_none]
          intro x hx hpx
          exact hpresent (List.any_eq_true.mpr ⟨x, hx, by simpa [hn] using hpx⟩)
        rw [hnone]
        simp [seedInsertRow, hn]
      · rw [if_neg (fun h => hn h.2)]
        have htail : List.find? (fun r : ModelRow => r.name = name) [seedInsertRow s now] = none := by
          simp [seedInsertRow, hn]
        rw [htail, Option.or_none]
  · rw [if_neg hcs, if_neg (fun h => hcs h.1)]

lemma nameView_seed_foldl (now : Int) (name : String) :
    ∀ (rows : List SeedRow) (models : List ModelRow),
      nameView (rows.foldl (seedStep now) models) name =
        rows.foldl (viewStep now name) (nameView models name) := by
  intro rows
  induction rows with
  | nil => intro models; rfl
  | cons s rs ih =>
    intro models
    simp only [List.foldl_cons]
    rw [ih, nameView_seedStep]

lemma countersAcc_viewStep (now : Int) (name : String) (acc : Option ModelRow) (s : SeedRow) :
    countersAcc (viewStep now name acc s) = countersAcc acc := by
  unfold viewStep
  by_cases h : seedComplete s ∧ s.name = name
  · rw [if_pos h]
    cases acc with
    | none => rfl
    | some r => rfl
  · rw [if_neg h]

lemma viewStep_some_name (now : Int) (name : String) (acc : Option ModelRow) (s : SeedRow)
    (hinv : ∀ r, acc = some r → r.name = name) :
    ∀ r, viewStep now name acc s = some r → r.name = name := by
  intro r h
  unfold viewStep at h
  by_cases hc : seedComplete s ∧ s.name = name
  · rw [if_pos hc] at h
    cases acc with
    | none =>
      simp only [Option.some.injEq] at h
      rw [← h]
      exact hc.2 ▸ rfl
    | some r0 =>
      simp only [Option.some.injEq] at h
      rw [← h]
      show r0.name = name
      exact hinv r0 rfl
  · rw [if_neg hc] at h
    exact hinv r h

lemma viewStep_matched (now : Int) (name : String) (acc : Option ModelRow) (s : SeedRow)
    (hc : seedComplete s ∧ s.name = name)
    (hinv : ∀ r, acc = some r → r.name = name) :
    viewStep now name acc s = some (mkSeedRow s now (countersAcc acc)) := by
  unfold viewStep
  rw [if_pos hc]
  cases acc with
  | none => rfl
  | some r =>
    have hr : r.name = name := hinv r rfl
    simp only [Option.some.injEq]
    unfold seedUpdateRow mkSeedRow seedInsertRow countersAcc
    have : r.name = s.name := by rw [hr, hc.2]
    simp [this]

lemma viewFold_last (now : Int) (name : String) :
    ∀ (rows : List SeedRow) (acc : Option ModelRow),
      (∀ r, acc = some r → r.name = name) →
      rows.foldl (viewStep now name) acc =
        match (rows.filter (fun s => decide (seedComplete s ∧ s.name = name))).getLast? with
        | none => acc
        | some s => some (mkSeedRow s now (countersAcc acc)) := by
  intro rows
  induction rows with
  | nil => intro acc _; rfl
  | cons s rs ih =>
    intro acc hinv
    simp only [List.foldl_cons]
    rw [ih (viewStep now name acc s) (viewStep_some_name now name acc s hinv)]
    by_cases hc : seedComplete s ∧ s.name = name
    · rw [List.filter_cons_of_pos (by simpa using hc)]
      rcases hf : rs.filter (fun x => decide (seedComplete x ∧ x.name = name)) with _ | ⟨x, xs⟩
      · simp only [List.getLast?_singleton]
        exact viewStep_matched now name acc s hc hinv
      · rw [List.getLast?_cons_cons]
        rcases hl : (x :: xs).getLast? with _ | s2
        · simp at hl
        · rw [countersAcc_viewStep]
    · rw [List.filter_cons_of_neg (by simpa using hc)]
      unfold viewStep
      rw [if_neg hc]

/-- C9.  CONFIRMED.  seedModels is idempotent on model configuration:
applying the same catalog twice leaves the stored configuration (origin,
rank, description, enabled, four quota ceilings) of every model name
exactly as after the first application (`updatedAt`, which the upsert
always rewrites with the current clock, is the only difference between the
two applications and is not part of the claimed configuration).  Every
application leaves usage events, outcome events, and the aggregate
counters of every already-present model untouched. -/
theorem seedModels_idempotent (db : DB) (rows : List SeedRow) (n1 n2 : Int) (name : String) :
    configOf (seedModels (seedModels db rows n1) rows n2) name
      = configOf (seedModels db rows n1) name ∧
    ((countersOf db name).isSome = true →
      countersOf (seedModels db rows n1) name = countersOf db name) ∧
    (seedModels db rows n1).usageLogs = db.usageLogs ∧
    (seedModels db rows n1).taskLogs = db.taskLogs := by
  have inv0 : ∀ r, nameView db.models name = some r → r.name = name := by
    intro r h; simpa using List.find?_some h
  have inv1 : ∀ r, nameView (seedModels db rows n1).models name = some r → r.name = name := by
    intro r h; simpa using List.find?_some h
  have h1 : nameView (seedModels db rows n1).models name
      = rows.foldl (viewStep n1 name) (nameView db.models name) :=
    nameView_seed_foldl n1 name rows db.models
  have h2 : nameView (seedModels (seedModels db rows n1) rows n2).models name
      = rows.foldl (viewStep n2 name) (nameView (seedModels db rows n1).models name) :=
    nameView_seed_foldl n2 name rows (seedModels db rows n1).models
  have hv1 := viewFold_last n1 name rows (nameView db.models name) inv0
  have hv2 := viewFold_last n2 name rows (nameView (seedModels db rows n1).models name) inv1
  refine ⟨?_, ?_, rfl, rfl⟩
  · unfold configOf
    rcases hL : (rows.filter (fun x => decide (seedComplete x ∧ x.name = name))).getLast? with _ | s
    · rw [hL] at hv2
      rw [h2, hv2]
    · rw [hL] at hv1 hv2
      rw [h2, hv2, h1, hv1]
      rfl
  · intro hs
    unfold countersOf at hs ⊢
    rcases hL : (rows.filter (fun x => decide (seedComplete x ∧ x.name = name))).getLast? with _ | s
    · rw [hL] at hv1
      rw [h1, hv1]
    · rw [hL] at hv1
      cases hva : nameView db.models name with
      | none => rw [hva] at hs; simp at hs
      | some r =>
        rw [hva] at hv1
        rw [h1, hva, hv1]
        rfl

lemma orderedInsert_map (g : ModelRow → ModelRow) (hg : ∀ r, (g r).rank = r.rank) (a : ModelRow) :
    ∀ l : List ModelRow,
      List.orderedInsert rankLE (g a) (l.map g) = (List.orderedInsert rankLE a l).map g := by
  intro l
  induction l with
  | nil => rfl
  | cons b t ih =>
    simp only [List.map_cons, List.orderedInsert]
    by_cases h : rankLE a b
    · rw [if_pos, if_pos h, List.map_cons, List.map_cons]
      show (g a).rank ≤ (g b).rank
      rw [hg a, hg b]
      exact h
    · rw [if_neg, if_neg h, List.map_cons, ih]
      show ¬ (g a).rank ≤ (g b).rank
      rw [hg a, hg b]
      exact h

lemma insertionSort_map (g : ModelRow → ModelRow) (hg : ∀ r, (g r).rank = r.rank) :
    ∀ l : List ModelRow,
      (l.map g).insertionSort rankLE = (l.insertionSort rankLE).map g := by
  intro l
  induction l with
  | nil => rfl
  | cons b t ih =>
    simp only [List.map_cons, List.insertionSort]
    rw [ih, orderedInsert_map g hg]

lemma getAllAvailableModels_congr (dbA dbB : DB) (g : ModelRow → ModelRow)
    (hmodels : dbB.models = dbA.models.map g)
    (husage : dbB.usageLogs = dbA.usageLogs)
    (hg : ∀ r, toModel (g r) = toModel r) :
    ∀ (mt now2 : Int), getAllAvailableModels dbB mt now2 = getAllAvailableModels dbA mt now2 := by
  intro mt now2
  have hname : ∀ r, (g r).name = r.name := fun r => congrArg Model.name (hg r)
  have hrank : ∀ r, (g r).rank = r.rank := fun r => congrArg Model.rank (hg r)
  have hen : ∀ r, (g r).enabled = r.enabled := fun r => congrArg Model.enabled (hg r)
  have havail : ∀ r, availableOk dbB mt now2 (g r) ↔ availableOk dbA mt now2 r := by
    intro r
    have e1 : (g r).rpmAllowed = r.rpmAllowed := congrArg Model.rpmAllowed (hg r)
    have e2 : (g r).tpmTotal = r.tpmTotal := congrArg Model.tpmTotal (hg r)
    have e3 : (g r).rpdTotal = r.rpdTotal := congrArg Model.rpdTotal (hg r)
    have e4 : (g r).tpdTotal = r.tpdTotal := congrArg Model.tpdTotal (hg r)
    unfold availableOk
    rw [husage, hname r, e1, e2, e3, e4]
  unfold getAllAvailableModels
  rw [hmodels]
  rw [List.filter_map]
  have hpe : ((fun r : ModelRow => r.enabled) ∘ g) = (fun r : ModelRow => r.enabled) :=
    funext fun r => hen r
  rw [hpe]
  rw [insertionSort_map g hrank]
  rw [List.filter_map]
  have hpa : ((fun r => decide (availableOk dbB mt now2 r)) ∘ g)
      = (fun r => decide (availableOk dbA mt now2 r)) := by
    funext r
    exact decide_eq_decide.mpr (havail r)
  rw [hpa]
  rw [List.map_map]
  have hmt : (toModel ∘ g) = toModel := funext fun r => hg r
  rw [hmt]

/-- C10.  CONFIRMED.  When the provider call throws, the attempt phase of
executeWithModel logs exactly one failed OutcomeEvent with tokensUsed = 0
and appends no UsageEvent: the usage log is unchanged, hence for every model the
four windowed usage sums and the entire getAllAvailableModels result are
identical before and after the failed attempt.  (The outcome insert bumps
only the failed-tasks counter, which no availability query reads.)  Usage
is recorded only on the success path of `attempt`. -/
theorem failed_attempt_consumes_no_quota (env : Env) (db : DB) (name task tt : String)
    (info : StatRow) (msg : String)
    (hfind : (getModelStats db env.now).find? (fun m => m.name = name) = some info)
    (horigin : env.origins.contains info.origin = true)
    (hprov : env.provider name = .error msg) :
    attempt env db name task tt
      = .error (msg, logTaskOutcome db name tt false 0 (some msg) env.now) ∧
    (logTaskOutcome db name tt false 0 (some msg) env.now).usageLogs = db.usageLogs ∧
    (logTaskOutcome db name tt false 0 (some msg) env.now).taskLogs
      = db.taskLogs ++ [⟨name, tt, false, orNull (some msg), 0, env.now⟩] ∧
    (∀ mdl now2, getModelUsage (logTaskOutcome db name tt false 0 (some msg) env.now) mdl now2
      = getModelUsage db mdl now2) ∧
    (∀ mt now2, getAllAvailableModels (logTaskOutcome db name tt false 0 (some msg) env.now) mt now2
      = getAllAvailableModels db mt now2) := by
  refine ⟨?_, rfl, rfl, fun mdl now2 => rfl, ?_⟩
  · unfold attempt
    simp only [hfind, horigin, hprov, if_true]
  · apply getAllAvailableModels_congr db (logTaskOutcome db name tt false 0 (some msg) env.now)
      (fun r => if r.name = name then { r with failedTasks := r.failedTasks + 1, updatedAt := env.now } else r)
    · rfl
    · rfl
    · intro r
      by_cases h : r.name = name <;> simp [h, toModel]

/-- C4.  CONFIRMED.  getModelUsage returns the four sums recomputed from
the event log over the trailing 60 s and 86400 s windows.  Consequently:
after any batch of recordUsage calls with timestamps inside the minute
window, the minute and day sums each grow by exactly the summed request and
token deltas; and once `now` advances beyond every event timestamp plus
60 s with no new events, both minute sums are 0 while the day sums (for
events still inside the day window) are unchanged. -/
theorem getUsage_window_spec :
    (∀ (db : DB) (m : String) (now : Int),
      getModelUsage db m now = ⟨m,
        sumRequestsSince db.usageLogs m (now - 60), sumTokensSince db.usageLogs m (now - 60),
        sumRequestsSince db.usageLogs m (now - 86400), sumTokensSince db.usageLogs m (now - 86400)⟩) ∧
    (∀ (db : DB) (m : String) (now : Int) (calls : List (Int × Int × Int)),
      (∀ c ∈ calls, now - 60 ≤ c.2.2) →
      getModelUsage (calls.foldl (fun d c => logModelUsage d m c.1 c.2.1 c.2.2) db) m now =
        ⟨m, (getModelUsage db m now).rpmUsed + (calls.map (fun c => c.1)).sum,
            (getModelUsage db m now).tpmUsed + (calls.map (fun c => c.2.1)).sum,
            (getModelUsage db m now).rpdUsed + (calls.map (fun c => c.1)).sum,
            (getModelUsage db m now).tpdUsed + (calls.map (fun c => c.2.1)).sum⟩) ∧
    (∀ (db : DB) (m : String) (now nowLater : Int),
      (∀ e ∈ db.usageLogs, e.model = m → e.timestamp ≤ now) →
      now + 60 < nowLater →
      ((getModelUsage db m nowLater).rpmUsed = 0 ∧ (getModelUsage db m nowLater).tpmUsed = 0) ∧
      ((∀ e ∈ db.usageLogs, e.model = m → nowLater - 86400 ≤ e.timestamp) →
        (getModelUsage db m nowLater).rpdUsed = (getModelUsage db m now).rpdUsed ∧
        (getModelUsage db m nowLater).tpdUsed = (getModelUsage db m now).tpdUsed)) :=
  ⟨fun _ _ _ => rfl,
   fun db m now calls h => logUsage_batch m now calls db h,
   fun db m now nowLater h1 h2 => usage_window_expiry db m now nowLater h1 h2⟩

/-- Witness for `getUsage_window_spec` at concrete inputs. -/
theorem getUsage_window_spec_witness :
    getModelUsage
        (([((1 : Int), (40 : Int), (970 : Int)), ((2 : Int), (9 : Int), (990 : Int))]).foldl
          (fun d c => logModelUsage d "a" c.1 c.2.1 c.2.2) ⟨[], [], []⟩) "a" 1000 =
      ⟨"a", 3, 49, 3, 49⟩ ∧
    ((getModelUsage ⟨[], [⟨"a", 1, 40, 970⟩], []⟩ "a" 1100).rpmUsed = 0 ∧
      (getModelUsage ⟨[], [⟨"a", 1, 40, 970⟩], []⟩ "a" 1100).tpmUsed = 0) ∧
    ((getModelUsage ⟨[], [⟨"a", 1, 40, 970⟩], []⟩ "a" 1100).rpdUsed =
        (getModelUsage ⟨[], [⟨"a", 1, 40, 970⟩], []⟩ "a" 1000).rpdUsed ∧
      (getModelUsage ⟨[], [⟨"a", 1, 40, 970⟩], []⟩ "a" 1100).tpdUsed =
        (getModelUsage ⟨[], [⟨"a", 1, 40, 970⟩], []⟩ "a" 1000).tpdUsed) := by
  have h1 := getUsage_window_spec.2.1 (DB.mk [] [] [])
    "a" 1000 [((1 : Int), (40 : Int), (970 : Int)), ((2 : Int), (9 : Int), (990 : Int))] (by decide)
  have h2 := getUsage_window_spec.2.2 (DB.mk [] [⟨"a", 1, 40, 970⟩] []) "a" 1000 1100
    (by decide) (by decide)
  exact ⟨by rw [h1]; rfl, h2.1, h2.2 (by decide)⟩

/-- Witness for `seedModels_idempotent` at a concrete catalog. -/
theorem seedModels_idempotent_witness :
    configOf (seedModels (seedModels dbAtom
        [⟨"m", "g2", 3, "dd", true, some 5, some 6, some 7, none⟩] 100)
        [⟨"m", "g2", 3, "dd", true, some 5, some 6, some 7, none⟩] 200) "m"
      = configOf (seedModels dbAtom
        [⟨"m", "g2", 3, "dd", true, some 5, some 6, some 7, none⟩] 100) "m" ∧
    countersOf (seedModels dbAtom
        [⟨"m", "g2", 3, "dd", true, some 5, some 6, some 7, none⟩] 100) "m"
      = countersOf dbAtom "m" :=
  ⟨(seedModels_idempotent dbAtom [⟨"m", "g2", 3, "dd", true, some 5, some 6, some 7, none⟩] 100 200 "m").1,
   (seedModels_idempotent dbAtom [⟨"m", "g2", 3, "dd", true, some 5, some 6, some 7, none⟩] 100 200 "m").2.1
     (by decide)⟩

/-- Witness for `failed_attempt_consumes_no_quota` at the two-model
scenario. -/
theorem failed_attempt_consumes_no_quota_witness :
    attempt envFail (dbAB 0 0 0 0 0 0 []) "alpha" "task" "general"
      = .error ("provider down",
          logTaskOutcome (dbAB 0 0 0 0 0 0 []) "alpha" "general" false 0 (some "provider down") 1000000) ∧
    getAllAvailableModels
        (logTaskOutcome (dbAB 0 0 0 0 0 0 []) "alpha" "general" false 0 (some "provider down") 1000000)
        500 1000000
      = getAllAvailableModels (dbAB 0 0 0 0 0 0 []) 500 1000000 :=
  ⟨(failed_attempt_consumes_no_quota envFail (dbAB 0 0 0 0 0 0 []) "alpha" "task" "general"
      (toStatRow (dbAB 0 0 0 0 0 0 []) 1000000 (rowA 0 0 0)) "provider down" rfl rfl rfl).1,
   (failed_attempt_consumes_no_quota envFail (dbAB 0 0 0 0 0 0 []) "alpha" "task" "general"
      (toStatRow (dbAB 0 0 0 0 0 0 []) 1000000 (rowA 0 0 0)) "provider down" rfl rfl rfl).2.2.2.2
     500 1000000⟩

end MJX
